import Mathlib

/-!
Verification of the intecture/auth certificate service.

This file gives a shallow embedding of the message-level behaviour of the
service: certificates and their metadata (src/cert.rs), the certificate
cache and its update-feed protocol (src/cert_cache.rs), the administrative
API's create path (src/api.rs), the server's per-request error handler
(src/server.rs), the ZAP authentication handler (src/zap_handler.rs) and
the XPUB-side subscription handling of the pub/sub proxy (src/zap_proxy.rs).

Sockets are modelled by making the received frames explicit arguments and
the sent frames explicit results; the fresh CURVE keypair produced by
`ZCert::new` is passed in as a pair of strings.  A ZeroMQ frame either
holds valid UTF-8 text, arbitrary non-UTF-8 bytes, or the czmq-encoded
certificate metadata (an association list of string pairs, kept abstract
as such since the czmq serialisation is deterministic and injective).
-/

namespace IntectureAuth

/-- Error kinds of src/error.rs that the modelled code paths can produce.
`czmq` stands for `Error::Czmq(_)`, a propagated library failure. -/
inductive Error
  | certNameCollision
  | czmq
  | forbidden
  | invalidArg
  | invalidArgsCount
  | invalidCert
  | invalidCertFeed
  | invalidCertMeta
  | invalidZapRequest
  | zapVersion
  deriving DecidableEq, Repr

/-- The `description()` strings of src/error.rs (the czmq description is
library-dependent; "CZMQ error" stands in for it). -/
def Error.description : Error → String
  | .certNameCollision => "Certificate name already exists"
  | .czmq => "CZMQ error"
  | .forbidden => "Access to this endpoint is forbidden"
  | .invalidArg => "Invalid argument provided"
  | .invalidArgsCount => "Invalid number of args provided"
  | .invalidCert => "Invalid certificate"
  | .invalidCertFeed => "Invalid message from certificate feed"
  | .invalidCertMeta => "Invalid certificate metadata"
  | .invalidZapRequest => "Invalid ZAP request"
  | .zapVersion => "ZAP version is invalid"

/-- A ZeroMQ message frame: UTF-8 text, non-UTF-8 bytes, or czmq-encoded
certificate metadata bytes (carried as the decoded association list). -/
inductive Frame
  | text (s : String)
  | bin (b : List Nat)
  | metaF (m : List (String × String))
  deriving DecidableEq, Repr

/-- `ZFrame::data()`: `Ok(string)` for valid UTF-8 content, `Err(bytes)`
otherwise.  Encoded-metadata bytes are treated as non-UTF-8 payload. -/
def Frame.data : Frame → Except (List Nat) String
  | .text s => .ok s
  | .bin b => .error b
  | .metaF _ => .error []

/-- `ZCert::decode_meta`: succeeds exactly on frames holding czmq-encoded
metadata; any other payload is a czmq library failure. -/
def Frame.decodeMeta : Frame → Except Error (List (String × String))
  | .metaF m => .ok m
  | _ => .error .czmq

/-- First-match lookup in an association list, as czmq's zhash lookup. -/
def metaLookup (m : List (String × String)) (k : String) : Option String :=
  (m.find? (fun kv => decide (kv.1 = k))).map (fun kv => kv.2)

/-- Certificate types of src/cert.rs (`runtime` is commented out there). -/
inductive CertType
  | host
  | user
  deriving DecidableEq, Repr

/-- `CertType::to_str` (src/cert.rs). -/
def CertType.toStr : CertType → String
  | .host => "host"
  | .user => "user"

/-- `CertType::from_str` (src/cert.rs): unknown tokens give InvalidCertMeta. -/
def CertType.fromStr (ctype : String) : Except Error CertType :=
  if ctype = "host" then .ok .host
  else if ctype = "user" then .ok .user
  else .error .invalidCertMeta

/-- A czmq `ZCert`: the Z85 text forms of the keypair plus the metadata
association list. -/
structure ZCert where
  publicTxt : String
  secretTxt : String
  meta : List (String × String)
  deriving DecidableEq, Repr

/-- `zcert.meta(key)` — first-match metadata lookup. -/
def ZCert.getMeta (z : ZCert) (k : String) : Option String :=
  metaLookup z.meta k

/-- `zcert.set_meta(key, value)` — overwrite or append. -/
def ZCert.setMeta (z : ZCert) (k v : String) : ZCert :=
  if z.meta.any (fun kv => decide (kv.1 = k))
  then { z with meta := z.meta.map (fun kv => if kv.1 = k then (k, v) else kv) }
  else { z with meta := z.meta ++ [(k, v)] }

/-- `zcert.encode_meta()` — the deterministic serialisation of the
metadata, kept abstract as the association list itself. -/
def ZCert.encodeMeta (z : ZCert) : List (String × String) :=
  z.meta

/-- `ZCert::from_txt(public, secret)` — a cert with keys but no metadata. -/
def ZCert.fromTxt (pk sk : String) : ZCert :=
  { publicTxt := pk, secretTxt := sk, meta := [] }

/-- `Cert` of src/cert.rs: a ZCert plus the cached name and type fields. -/
structure Cert where
  zcert : ZCert
  name : String
  cert_type : CertType
  deriving DecidableEq, Repr

def Cert.publicTxt (c : Cert) : String := c.zcert.publicTxt

def Cert.secretTxt (c : Cert) : String := c.zcert.secretTxt

def Cert.encodeMeta (c : Cert) : List (String × String) := c.zcert.meta

/-- `Cert::new(name, cert_type)` (src/cert.rs lines 47-57).  The fresh
keypair generated by `ZCert::new()` is passed in as `pk`/`sk`. -/
def Cert.freshNew (pk sk name : String) (ct : CertType) : Cert :=
  { zcert := ((ZCert.fromTxt pk sk).setMeta "name" name).setMeta "type" ct.toStr,
    name := name,
    cert_type := ct }

/-- `Cert::from_zcert` (src/cert.rs lines 59-77): missing name or type
meta gives InvalidCert; the type token is parsed by `CertType::from_str`
whose failure (InvalidCertMeta) is propagated. -/
def Cert.fromZcert (z : ZCert) : Except Error Cert :=
  match z.getMeta "name" with
  | none => .error .invalidCert
  | some n =>
    match z.getMeta "type" with
    | none => .error .invalidCert
    | some t =>
      match CertType.fromStr t with
      | .error e => .error e
      | .ok ct => .ok { zcert := z, name := n, cert_type := ct }

/-- The dummy secret used by `CertCache::recv` when rebuilding a cert
from the feed (src/cert_cache.rs line 110). -/
def zeroKey : String := "0000000000000000000000000000000000000000"

/-- Reconstruction of a remote certificate from its public key text and
encoded meta: `ZCert::from_txt` + `decode_meta` + `Cert::from_zcert`,
the path of src/cert_cache.rs lines 110-113. -/
def fromEncoded (pk : String) (m : List (String × String)) : Except Error Cert :=
  Cert.fromZcert { publicTxt := pk, secretTxt := zeroKey, meta := m }

/-- A certificate whose metadata is exactly the (name, type) stamp that
`Cert::new` writes.  Every certificate the program constructs satisfies
this. -/
def Cert.canonicalMeta (c : Cert) : Prop :=
  c.zcert.meta = [("name", c.name), ("type", c.cert_type.toStr)]

/-- `CertCache` of src/cert_cache.rs: a map from public-key text to
certificate, modelled as an association list (HashMap insertion order is
unspecified; the list fixes one order). -/
structure CertCache where
  cache : List (String × Cert)
  deriving DecidableEq, Repr

def CertCache.emptyCache : CertCache := { cache := [] }

/-- `HashMap::insert`: overwrite an existing key in place or append. -/
def CertCache.insert (c : CertCache) (k : String) (v : Cert) : CertCache :=
  if c.cache.any (fun kv => decide (kv.1 = k))
  then { cache := c.cache.map (fun kv => if kv.1 = k then (k, v) else kv) }
  else { cache := c.cache ++ [(k, v)] }

/-- `HashMap::remove`. -/
def CertCache.remove (c : CertCache) (k : String) : CertCache :=
  { cache := c.cache.filter (fun kv => !(decide (kv.1 = k))) }

/-- `CertCache::get` — lookup by public-key text. -/
def CertCache.get (c : CertCache) (k : String) : Option Cert :=
  (c.cache.find? (fun kv => decide (kv.1 = k))).map (fun kv => kv.2)

/-- Whether a certificate passes the snapshot topic filter
(`topic.is_none() || cert.cert_type() == topic.unwrap()`). -/
def topicMatch (t : Option CertType) (c : Cert) : Bool :=
  match t with
  | none => true
  | some ct => decide (c.cert_type = ct)

/-- The topic frame text of a snapshot (src/cert_cache.rs lines 65-68). -/
def topicStr : Option CertType → String
  | some ct => ct.toStr
  | none => ""

/-- The (public-key, encoded-meta) frame pairs appended for each matching
certificate (src/cert_cache.rs lines 71-76). -/
def pairsOf : List (String × Cert) → List Frame
  | [] => []
  | kv :: rest => Frame.text kv.2.publicTxt :: Frame.metaF kv.2.encodeMeta :: pairsOf rest

/-- `CertCache::send` (src/cert_cache.rs lines 63-83): the snapshot
message sent for a topic filter, or `none` when the message would hold
only the two header frames (`msg.size() > 2` fails) and nothing is sent. -/
def CertCache.sendMsg (c : CertCache) (t : Option CertType) : Option (List Frame) :=
  let pairs := pairsOf (c.cache.filter (fun kv => topicMatch t kv.2))
  if pairs.isEmpty then none
  else some (Frame.text (topicStr t) :: Frame.text "ADD" :: pairs)

/-- The ADD loop of `CertCache::recv` (src/cert_cache.rs lines 97-118):
consumes (pubkey, meta) frame pairs; a non-UTF-8 pubkey frame fails with
InvalidCertFeed, a final pubkey frame with no meta frame hits the `break`
and is dropped, meta decoding and certificate reconstruction failures
are propagated. -/
def CertCache.addLoop : CertCache → List Frame → Except Error CertCache
  | c, [] => .ok c
  | c, [f] =>
    match f.data with
    | .ok _ => .ok c
    | .error _ => .error .invalidCertFeed
  | c, f :: g :: rest =>
    match f.data with
    | .error _ => .error .invalidCertFeed
    | .ok pk =>
      match g.decodeMeta with
      | .error e => .error e
      | .ok m =>
        match fromEncoded pk m with
        | .error e => .error e
        | .ok cert => CertCache.addLoop (c.insert cert.publicTxt cert) rest

/-- `CertCache::recv` (src/cert_cache.rs lines 85-131) applied to a
received update-feed message: pops the topic frame, dispatches on the
action frame ("ADD"/"DEL"), and returns the mutated cache. -/
def CertCache.recvMsg (c : CertCache) (msg : List Frame) : Except Error CertCache :=
  match msg with
  | [] => .error .invalidCertFeed
  | _ :: rest =>
    match rest with
    | [] => .error .invalidCertFeed
    | action :: rest2 =>
      match action.data with
      | .error _ => .error .invalidCertFeed
      | .ok a =>
        if a = "ADD" then c.addLoop rest2
        else if a = "DEL" then
          match rest2 with
          | [] => .error .invalidCertFeed
          | pkF :: _ =>
            match pkF.data with
            | .error _ => .error .invalidCertFeed
            | .ok pk => .ok (c.remove pk)
        else .error .invalidCertFeed

/-- `RequestMeta` of src/request_meta.rs: the authenticated peer's name
and certificate type, extracted from the CURVE metadata of the incoming
frame. -/
structure RequestMeta where
  name : String
  cert_type : CertType
  deriving DecidableEq, Repr

/-- `RequestMeta::new` (src/request_meta.rs lines 19-42).  The incoming
`ZFrame` is represented by its attached CURVE metadata. -/
def RequestMeta.make (fm : List (String × String)) : Except Error RequestMeta :=
  match metaLookup fm "name" with
  | none => .error .invalidCert
  | some n =>
    match metaLookup fm "type" with
    | none => .error .invalidCert
    | some t =>
      match CertType.fromStr t with
      | .error e => .error e
      | .ok ct => .ok { name := n, cert_type := ct }

/-- The observable state of a `CertApi` (src/api.rs): the persistence
store (name-keyed, the disk backend of src/storage/disk.rs), the list of
messages sent on the internal publisher, and the shared certificate
cache. -/
structure ApiState where
  persistence : List (String × Cert)
  published : List (List Frame)
  cache : CertCache
  deriving DecidableEq, Repr

/-- `PersistDisk::create` (src/storage/disk.rs): name collision check,
then the certificate is stored under its name. -/
def persistCreate (store : List (String × Cert)) (c : Cert) :
    Except Error (List (String × Cert)) :=
  if store.any (fun kv => decide (kv.1 = c.name)) then .error .certNameCollision
  else .ok (store ++ [(c.name, c)])

/-- The single-certificate ADD event `do_create` publishes
(src/api.rs lines 96-102). -/
def apiAddEvent (c : Cert) : List Frame :=
  [Frame.text c.cert_type.toStr, Frame.text "ADD",
   Frame.text c.publicTxt, Frame.metaF c.encodeMeta]

/-- The single-certificate DEL event `do_delete` publishes
(src/api.rs lines 137-142). -/
def apiDelEvent (c : Cert) : List Frame :=
  [Frame.text c.cert_type.toStr, Frame.text "DEL", Frame.text c.publicTxt]

/-- `CertApi::do_create` (src/api.rs lines 80-113).  `req` is the message
received on the API socket (`ZMsg::expect_recv(sock, 2, Some(2), _)`,
whose wrong-count failure the spec names InvalidArgsCount); `pk`/`sk` is
the fresh keypair from `ZCert::new`.  Returns the state after the call
together with the reply sent (state is unchanged on error). -/
def doCreate (st : ApiState) (req : List Frame) (pk sk : String)
    (routerId : List Nat) : ApiState × Except Error (List Frame) :=
  match req with
  | [f1, f2] =>
    (match f1.data with
     | .error _ => (st, .error .invalidCertMeta)
     | .ok t =>
       match CertType.fromStr t with
       | .error e => (st, .error e)
       | .ok ct =>
         match f2.data with
         | .error _ => (st, .error .invalidCertMeta)
         | .ok n =>
           let cert := Cert.freshNew pk sk n ct
           match persistCreate st.persistence cert with
           | .error e => (st, .error e)
           | .ok store =>
             ({ persistence := store,
                published := st.published ++ [apiAddEvent cert],
                cache := st.cache },
              .ok [Frame.bin routerId, Frame.text "Ok", Frame.text cert.publicTxt,
                   Frame.text cert.secretTxt, Frame.metaF cert.encodeMeta]))
  | _ => (st, .error .invalidArgsCount)

/-- `CertApi::create` (src/api.rs lines 69-77): only peers whose
authenticated certificate type is `user` may create; everyone else is
rejected with Forbidden before anything is received or mutated. -/
def apiCreate (st : ApiState) (endpointMeta : List (String × String))
    (req : List Frame) (pk sk : String) (routerId : List Nat) :
    ApiState × Except Error (List Frame) :=
  match RequestMeta.make endpointMeta with
  | .error e => (st, .error e)
  | .ok m =>
    if decide (m.cert_type = CertType.user) then doCreate st req pk sk routerId
    else (st, .error .forbidden)

/-- Modelled from the spec: zdaemon's `ZMsg::new_err` builds the frames
["Err", description]; the repository's own test
(src/server.rs test_error_handler) pins the resulting reply down. -/
def newErr (e : Error) : List Frame :=
  [Frame.text "Err", Frame.text e.description]

/-- `error_handler` (src/server.rs lines 157-169): on a failed request it
prepends an empty frame and the router identity to the "Err" message and
sends it; on success nothing is sent. -/
def errorHandler (routerId : List Nat) (result : Except Error Unit) :
    Option (List Frame) :=
  match result with
  | .ok _ => none
  | .error e => some (Frame.bin routerId :: Frame.text "" :: newErr e)

/-- A ZAP request after the 7 frames have been received and the raw
public key Z85-encoded (src/zap_handler.rs lines 148-158). -/
structure ZapRequest where
  version : String
  sequence : String
  domain : String
  address : String
  identity : String
  mechanism : String
  clientPk : String
  deriving DecidableEq, Repr

/-- `ZapRequest::new` (src/zap_handler.rs lines 160-195): version must be
"1.0" (else ZapVersion) and the Z85 public key must be 40 characters
(else InvalidZapRequest). -/
def ZapRequest.make (version sequence domain address identity mechanism
    clientPk : String) : Except Error ZapRequest :=
  if version ≠ "1.0" then .error .zapVersion
  else if clientPk.length ≠ 40 then .error .invalidZapRequest
  else .ok { version := version, sequence := sequence, domain := domain,
             address := address, identity := identity,
             mechanism := mechanism, clientPk := clientPk }

/-- `ZapRequest::zap_reply` (src/zap_handler.rs lines 215-239): the reply
message [version, sequence, status-code, status-text, "", metadata]. -/
def zapReply (sequence : String) (ok : Bool)
    (metadata : Option (List (String × String))) : List Frame :=
  [Frame.text "1.0", Frame.text sequence] ++
  (if ok then [Frame.text "200", Frame.text "OK"]
   else [Frame.text "400", Frame.text "No access"]) ++
  [Frame.text ""] ++
  (match metadata with
   | some m => [Frame.metaF m]
   | none => [Frame.text ""])

/-- `ZapRequest::authenticate` (src/zap_handler.rs lines 197-213): CURVE
plus a cache hit gives 200/OK with the certificate's encoded meta; every
other case gives 400/"No access". -/
def ZapRequest.authenticate (r : ZapRequest) (cc : CertCache) : List Frame :=
  if r.mechanism = "CURVE" then
    match cc.get r.clientPk with
    | some c => zapReply r.sequence true (some c.encodeMeta)
    | none => zapReply r.sequence false none
  else zapReply r.sequence false none

/-- The topic bytes of a subscription frame: either valid UTF-8 text or
non-UTF-8 bytes. -/
inductive TopicBytes
  | utf8 (s : String)
  | bad (b : List Nat)
  deriving DecidableEq, Repr

/-- `topic_bytes.len() == 0` (zero bytes means the empty string for
UTF-8 content and the empty byte list otherwise). -/
def TopicBytes.isEmpty : TopicBytes → Bool
  | .utf8 s => decide (s = "")
  | .bad b => decide (b = [])

/-- The raw subscription frame seen by the XPUB side: empty, or an event
byte followed by the topic bytes (`bytes.split_first()`). -/
inductive SubFrame
  | emptyFrame
  | withEvent (event : Nat) (topic : TopicBytes)
  deriving DecidableEq, Repr

/-- The error type of zdaemon's `Endpoint::recv` as used by the proxy:
either a wrapped application error or the `str::from_utf8` failure. -/
inductive DError
  | generic (e : Error)
  | utf8Fail
  deriving DecidableEq, Repr

/-- `ZapPublisher::recv` (src/zap_proxy.rs lines 58-87) restricted to its
observable effect on one subscription frame: the snapshot message sent on
the XPUB socket (if any) and the frame forwarded unchanged to the XSUB
side.  Snapshot only on event byte 1; empty topic means the full cache;
otherwise the topic must be UTF-8 and a recognised certificate type. -/
def zapPublisherRecv (cc : CertCache) (sub : SubFrame) :
    Except DError (Option (List Frame) × SubFrame) :=
  match sub with
  | .emptyFrame => .ok (none, sub)
  | .withEvent ev topic =>
    if ev = 1 then
      if topic.isEmpty then .ok (cc.sendMsg none, sub)
      else
        match topic with
        | .utf8 s =>
          match CertType.fromStr s with
          | .ok ct => .ok (cc.sendMsg (some ct), sub)
          | .error e => .error (.generic e)
        | .bad _ => .error .utf8Fail
    else .ok (none, sub)

/-- The well-formedness invariant of every reachable cache: keys are
distinct, each entry is keyed by its certificate's public-key text, and
each certificate carries the canonical (name, type) metadata. -/
def CertCache.wf (c : CertCache) : Prop :=
  (c.cache.map (fun kv => kv.1)).Nodup ∧
  ∀ kv ∈ c.cache, kv.1 = kv.2.publicTxt ∧ kv.2.canonicalMeta

/-- The cache viewed as a map from public-key text to
(name, type, public key), the comparison demanded by the spec's
round-trip law. -/
def CertCache.view (cc : CertCache) (p : String) :
    Option (String × CertType × String) :=
  (cc.get p).map (fun c => (c.name, c.cert_type, c.publicTxt))

/-- The cache restricted to a topic filter. -/
def CertCache.filterTopic (cc : CertCache) (t : Option CertType) : CertCache :=
  { cache := cc.cache.filter (fun kv => topicMatch t kv.2) }

/-- The certificate `CertCache::recv` rebuilds from a feed pair carrying
`c`'s public key and metadata: same name and type, public key text `pk`,
dummy zero secret. -/
def reconCert (pk : String) (c : Cert) : Cert :=
  { zcert := { publicTxt := pk, secretTxt := zeroKey, meta := c.zcert.meta },
    name := c.name, cert_type := c.cert_type }

/-- Folding the ADD loop's insertions over a list of cache entries. -/
def insertAll (c : CertCache) (l : List (String × Cert)) : CertCache :=
  l.foldl (fun acc kv => acc.insert kv.2.publicTxt (reconCert kv.2.publicTxt kv.2)) c

/-- Whether a frame textually contains the string `s` (as a text frame or
as a key or value of an encoded-metadata frame). -/
def mentionsStr (s : String) : Frame → Bool
  | .text x => decide (x = s)
  | .bin _ => false
  | .metaF m => m.any (fun kv => decide (kv.1 = s) || decide (kv.2 = s))

/-- No frame of the message mentions the string `s`. -/
def checkNoSecret (s : String) (msg : List Frame) : Bool :=
  msg.all (fun f => !(mentionsStr s f))

/-- Strings that legitimately occur on the update feed as frame text or
metadata keys; a secret key is assumed distinct from all of them. -/
def notReserved (s : String) : Prop :=
  s ≠ "" ∧ s ≠ "host" ∧ s ≠ "user" ∧ s ≠ "ADD" ∧ s ≠ "DEL" ∧
  s ≠ "name" ∧ s ≠ "type"

/-- A sample 40-character Z85 public-key text for concrete instances. -/
def samplePk : String := "AAAAAAAAAAAAAAAAAAAAAAAAAAAAAAAAAAAAAAAA"

/-- A sample certificate for concrete instances. -/
def sampleCert : Cert := Cert.freshNew samplePk "SECRETKEY" "peetar" .user

/-- A one-certificate cache for concrete instances. -/
def sampleCache : CertCache := { cache := [(samplePk, sampleCert)] }

/-- CURVE metadata of a sample authenticated user peer. -/
def userPeerMeta : List (String × String) := [("name", "boss"), ("type", "user")]

/-- CURVE metadata of a sample authenticated host peer. -/
def hostPeerMeta : List (String × String) := [("name", "web1"), ("type", "host")]

/-- An empty API state for concrete instances. -/
def sampleState : ApiState :=
  { persistence := [], published := [], cache := CertCache.emptyCache }

/-! ### Helper lemmas -/

theorem fromStr_toStr (ct : CertType) : CertType.fromStr ct.toStr = .ok ct := by
  cases ct <;> rfl

theorem fromStr_unknown (s : String) (h1 : s ≠ "host") (h2 : s ≠ "user") :
    CertType.fromStr s = .error .invalidCertMeta := by
  unfold CertType.fromStr
  rw [if_neg h1, if_neg h2]

theorem freshNew_canonicalMeta (pk sk n : String) (ct : CertType) :
    (Cert.freshNew pk sk n ct).canonicalMeta := by
  cases ct <;> rfl

@[simp] theorem freshNew_name (pk sk n : String) (ct : CertType) :
    (Cert.freshNew pk sk n ct).name = n := rfl

@[simp] theorem freshNew_publicTxt (pk sk n : String) (ct : CertType) :
    (Cert.freshNew pk sk n ct).publicTxt = pk := rfl

@[simp] theorem freshNew_secretTxt (pk sk n : String) (ct : CertType) :
    (Cert.freshNew pk sk n ct).secretTxt = sk := rfl

@[simp] theorem freshNew_cert_type (pk sk n : String) (ct : CertType) :
    (Cert.freshNew pk sk n ct).cert_type = ct := rfl

@[simp] theorem freshNew_encodeMeta (pk sk n : String) (ct : CertType) :
    (Cert.freshNew pk sk n ct).encodeMeta = [("name", n), ("type", ct.toStr)] := rfl

@[simp] theorem reconCert_publicTxt (pk : String) (c : Cert) :
    (reconCert pk c).publicTxt = pk := rfl

@[simp] theorem reconCert_name (pk : String) (c : Cert) :
    (reconCert pk c).name = c.name := rfl

@[simp] theorem reconCert_cert_type (pk : String) (c : Cert) :
    (reconCert pk c).cert_type = c.cert_type := rfl

theorem fromEncoded_canonical (pk : String) (c : Cert) (hc : c.canonicalMeta) :
    fromEncoded pk c.encodeMeta = .ok (reconCert pk c) := by
  rcases c with ⟨⟨cpk, csk, cmeta⟩, cname, cct⟩
  unfold Cert.canonicalMeta at hc
  simp only at hc
  subst hc
  cases cct <;> rfl

theorem fromEncoded_missing_name (pk : String) (m : List (String × String))
    (h : metaLookup m "name" = none) : fromEncoded pk m = .error .invalidCert := by
  unfold fromEncoded Cert.fromZcert ZCert.getMeta
  simp only [h]

theorem fromEncoded_missing_type (pk n : String) (m : List (String × String))
    (hn : metaLookup m "name" = some n) (h : metaLookup m "type" = none) :
    fromEncoded pk m = .error .invalidCert := by
  unfold fromEncoded Cert.fromZcert ZCert.getMeta
  simp only [hn, h]

theorem fromEncoded_unknown_type (pk n t : String) (m : List (String × String))
    (hn : metaLookup m "name" = some n) (ht : metaLookup m "type" = some t)
    (h1 : t ≠ "host") (h2 : t ≠ "user") :
    fromEncoded pk m = .error .invalidCertMeta := by
  unfold fromEncoded Cert.fromZcert ZCert.getMeta
  simp only [hn, ht, fromStr_unknown t h1 h2]

theorem insertAll_cons (c : CertCache) (kv : String × Cert) (t : List (String × Cert)) :
    insertAll c (kv :: t) =
      insertAll (c.insert kv.2.publicTxt (reconCert kv.2.publicTxt kv.2)) t := rfl

theorem addLoop_pairs (l : List (String × Cert)) (c : CertCache)
    (hl : ∀ kv ∈ l, kv.2.canonicalMeta) :
    c.addLoop (pairsOf l) = .ok (insertAll c l) := by
  induction l generalizing c with
  | nil => rfl
  | cons kv t ih =>
    have hhead : kv.2.canonicalMeta := hl kv (List.mem_cons_self kv t)
    have hrest : ∀ x ∈ t, x.2.canonicalMeta := fun x hx => hl x (List.mem_cons_of_mem _ hx)
    show CertCache.addLoop c
      (Frame.text kv.2.publicTxt :: Frame.metaF kv.2.encodeMeta :: pairsOf t) = _
    simp only [CertCache.addLoop, Frame.data, Frame.decodeMeta,
               fromEncoded_canonical _ _ hhead, insertAll_cons, reconCert_publicTxt]
    exact ih _ hrest

theorem recvMsg_add (c : CertCache) (f : Frame) (rest : List Frame) :
    CertCache.recvMsg c (f :: Frame.text "ADD" :: rest) = c.addLoop rest := rfl

theorem recvMsg_del (c : CertCache) (f : Frame) (pk : String) (rest : List Frame) :
    CertCache.recvMsg c (f :: Frame.text "DEL" :: Frame.text pk :: rest) =
      .ok (c.remove pk) := rfl

theorem remove_absent (c : CertCache) (pk : String) (h : c.get pk = none) :
    c.remove pk = c := by
  unfold CertCache.get at h
  have hfind : c.cache.find? (fun kv => decide (kv.1 = pk)) = none :=
    Option.map_eq_none'.mp h
  have hall : ∀ kv ∈ c.cache, ¬(kv.1 = pk) := by
    intro kv hkv
    have := List.find?_eq_none.mp hfind kv hkv
    simpa using this
  unfold CertCache.remove
  have : c.cache.filter (fun kv => !(decide (kv.1 = pk))) = c.cache := by
    apply List.filter_eq_self.mpr
    intro kv hkv
    simpa using hall kv hkv
  rw [this]

theorem insert_of_fresh (c : CertCache) (k : String) (v : Cert)
    (h : ∀ kv ∈ c.cache, kv.1 ≠ k) :
    c.insert k v = { cache := c.cache ++ [(k, v)] } := by
  unfold CertCache.insert
  have : c.cache.any (fun kv => decide (kv.1 = k)) = false := by
    simp only [List.any_eq_false, decide_eq_true_eq]
    exact h
  rw [this]
  simp

theorem insertAll_append (l : List (String × Cert)) (c : CertCache)
    (hnd : (l.map (fun kv => kv.2.publicTxt)).Nodup)
    (hdis : ∀ kv ∈ l, ∀ e ∈ c.cache, e.1 ≠ kv.2.publicTxt) :
    insertAll c l =
      { cache := c.cache ++ l.map (fun kv => (kv.2.publicTxt, reconCert kv.2.publicTxt kv.2)) } := by
  induction l generalizing c with
  | nil => simp [insertAll]
  | cons kv t ih =>
    rw [insertAll_cons]
    rw [insert_of_fresh c kv.2.publicTxt (reconCert kv.2.publicTxt kv.2)
        (fun e he => hdis kv (List.mem_cons_self kv t) e he)]
    rw [ih]
    · simp
    · exact (List.nodup_cons.mp hnd).2
    · intro x hx e he
      rcases List.mem_append.mp he with hin | hone
      · exact hdis x (List.mem_cons_of_mem _ hx) e hin
      · have he2 : e = (kv.2.publicTxt, reconCert kv.2.publicTxt kv.2) := by simpa using hone
        subst he2
        have hne : kv.2.publicTxt ∉ t.map (fun kv => kv.2.publicTxt) :=
          (List.nodup_cons.mp hnd).1
        intro hc
        have hc2 : kv.2.publicTxt = x.2.publicTxt := hc
        exact hne (hc2 ▸ List.mem_map_of_mem _ hx)

theorem view_map_recon (l : List (String × Cert)) (p : String)
    (hk : ∀ kv ∈ l, kv.1 = kv.2.publicTxt) :
    CertCache.view
        { cache := l.map (fun kv => (kv.2.publicTxt, reconCert kv.2.publicTxt kv.2)) } p =
      CertCache.view { cache := l } p := by
  induction l with
  | nil => rfl
  | cons kv t ih =>
    have hh : kv.1 = kv.2.publicTxt := hk kv (List.mem_cons_self kv t)
    have ht : ∀ x ∈ t, x.1 = x.2.publicTxt := fun x hx => hk x (List.mem_cons_of_mem _ hx)
    by_cases hp : kv.2.publicTxt = p
    · have e1 : List.find? (fun kv => decide (kv.1 = p))
          ((kv.2.publicTxt, reconCert kv.2.publicTxt kv.2) ::
            t.map (fun kv => (kv.2.publicTxt, reconCert kv.2.publicTxt kv.2))) =
            some (kv.2.publicTxt, reconCert kv.2.publicTxt kv.2) :=
        List.find?_cons_of_pos _ (by simpa using hp)
      have e2 : List.find? (fun kv => decide (kv.1 = p)) (kv :: t) = some kv :=
        List.find?_cons_of_pos _ (by simpa using hh.trans hp)
      unfold CertCache.view CertCache.get
      simp only [List.map_cons, e1, e2, Option.map_some']
      rfl
    · have e1 : List.find? (fun kv => decide (kv.1 = p))
          ((kv.2.publicTxt, reconCert kv.2.publicTxt kv.2) ::
            t.map (fun kv => (kv.2.publicTxt, reconCert kv.2.publicTxt kv.2))) =
          List.find? (fun kv => decide (kv.1 = p))
            (t.map (fun kv => (kv.2.publicTxt, reconCert kv.2.publicTxt kv.2))) :=
        List.find?_cons_of_neg _ (by simpa using hp)
      have e2 : List.find? (fun kv => decide (kv.1 = p)) (kv :: t) =
          List.find? (fun kv => decide (kv.1 = p)) t :=
        List.find?_cons_of_neg _ (by simp only [decide_eq_true_eq]; rw [hh]; exact hp)
      unfold CertCache.view CertCache.get
      simp only [List.map_cons, e1, e2]
      exact ih ht

/-! ### Claim theorems -/

/-- Claim C7: for every well-formed cache and every type filter for which a
snapshot is emitted, applying the snapshot message with `CertCache::recv`
to a fresh empty cache yields a cache equal — as a map from public-key
text to (name, type, public key) — to the source cache restricted to the
filter. -/
theorem snapshot_roundtrip (cc : CertCache) (t : Option CertType) (m : List Frame)
    (hwf : cc.wf) (hm : cc.sendMsg t = some m) :
    ∃ c2, CertCache.recvMsg CertCache.emptyCache m = .ok c2 ∧
      ∀ p, c2.view p = (cc.filterTopic t).view p := by
  obtain ⟨hnd, hkv⟩ := hwf
  simp only [CertCache.sendMsg] at hm
  set l := cc.cache.filter (fun kv => topicMatch t kv.2) with hl
  have hmem : ∀ kv ∈ l, kv.1 = kv.2.publicTxt ∧ kv.2.canonicalMeta := by
    intro kv hkvl
    exact hkv kv (List.mem_of_mem_filter hkvl)
  rcases Decidable.em ((pairsOf l).isEmpty = true) with hemp | hemp
  · rw [if_pos hemp] at hm
    exact absurd hm (by simp)
  · rw [if_neg hemp] at hm
    have hme : m = Frame.text (topicStr t) :: Frame.text "ADD" :: pairsOf l :=
      (Option.some.inj hm).symm
    subst hme
    refine ⟨insertAll CertCache.emptyCache l, ?_, ?_⟩
    · rw [recvMsg_add]
      exact addLoop_pairs l _ (fun kv h => (hmem kv h).2)
    · intro p
      have hnd2 : (l.map (fun kv => kv.2.publicTxt)).Nodup := by
        have hmc : l.map (fun kv => kv.2.publicTxt) = l.map (fun kv => kv.1) := by
          apply List.map_congr_left
          intro kv hk
          exact ((hmem kv hk).1).symm
        rw [hmc, hl]
        exact hnd.sublist (List.Sublist.map _ (List.filter_sublist _))
      rw [insertAll_append l _ hnd2 (by intro kv hk e he; simp [CertCache.emptyCache] at he)]
      have hft : (CertCache.filterTopic cc t) = { cache := l } := rfl
      rw [hft]
      have hsimp : CertCache.emptyCache.cache ++
          l.map (fun kv => (kv.2.publicTxt, reconCert kv.2.publicTxt kv.2)) =
          l.map (fun kv => (kv.2.publicTxt, reconCert kv.2.publicTxt kv.2)) := by
        simp [CertCache.emptyCache]
      rw [hsimp]
      exact view_map_recon l p (fun kv hk => (hmem kv hk).1)

/-- Witness for C7 at the sample one-certificate cache with the
full-cache filter. -/
theorem snapshot_roundtrip_witness :
    ∃ c2, CertCache.recvMsg CertCache.emptyCache
        [Frame.text "", Frame.text "ADD", Frame.text samplePk,
         Frame.metaF sampleCert.encodeMeta] = .ok c2 ∧
      ∀ p, c2.view p = (sampleCache.filterTopic none).view p :=
  snapshot_roundtrip sampleCache none
    [Frame.text "", Frame.text "ADD", Frame.text samplePk,
     Frame.metaF sampleCert.encodeMeta]
    (by
      constructor
      · simp [sampleCache]
      · intro kv hkv
        simp only [sampleCache, List.mem_singleton] at hkv
        subst hkv
        exact ⟨rfl, freshNew_canonicalMeta samplePk "SECRETKEY" "peetar" .user⟩)
    rfl

/-- Claim C2 counterexample: at router id [114] and error Forbidden the reply
the server actually sends is [routing-id, "", "Err", description] — it
carries an extra empty delimiter frame after the router identity (the
repository's own test test_error_handler asserts exactly these frames),
so it is not [routing-id, "Err", description] as the claim states. -/
theorem error_reply_cex :
    errorHandler [114] (.error .forbidden) =
      some [Frame.bin [114], Frame.text "", Frame.text "Err",
            Frame.text "Access to this endpoint is forbidden"] ∧
    errorHandler [114] (.error .forbidden) ≠
      some [Frame.bin [114], Frame.text "Err",
            Frame.text "Access to this endpoint is forbidden"] :=
  ⟨rfl, by decide⟩

/-- Claim C2 (amended): for every failed request the reply sent to the peer is
exactly [routing-id, "", "Err", description] — router identity, an empty
delimiter frame, the status token "Err", and the error description; on
success the error handler sends nothing. -/
theorem error_reply_frames (rid : List Nat) (e : Error) :
    errorHandler rid (.error e) =
      some [Frame.bin rid, Frame.text "", Frame.text "Err", Frame.text e.description] ∧
    errorHandler rid (.ok ()) = none :=
  ⟨rfl, rfl⟩

/-- Claim C3: a cert::create request whose authenticated peer metadata carries a
certificate type other than `user` fails with Forbidden, the state
(persistence, published events, cache) is returned unchanged, and no
reply besides the error is produced. -/
theorem create_forbidden_non_user (st : ApiState) (fm : List (String × String))
    (req : List Frame) (pk sk : String) (rid : List Nat) (m : RequestMeta)
    (hm : RequestMeta.make fm = .ok m) (hu : m.cert_type ≠ .user) :
    apiCreate st fm req pk sk rid = (st, .error .forbidden) := by
  simp [apiCreate, hm, hu]

/-- Witness for C3 at a concrete host peer and empty state. -/
theorem create_forbidden_non_user_witness :
    apiCreate sampleState hostPeerMeta [] "P" "S" [] = (sampleState, .error .forbidden) :=
  create_forbidden_non_user sampleState hostPeerMeta [] "P" "S" []
    { name := "web1", cert_type := .host } rfl (by decide)

/-- Claim C9 counterexample: reconstructing a certificate whose meta carries the
unrecognised type token "moo" fails with InvalidCertMeta (propagated from
`CertType::from_str`), not InvalidCert as the claim states. -/
theorem from_encoded_unknown_type_cex :
    fromEncoded "PK" [("name", "x"), ("type", "moo")] = .error .invalidCertMeta ∧
    Error.invalidCertMeta ≠ Error.invalidCert :=
  ⟨rfl, by decide⟩

/-- Claim C9 (amended): reconstruction from an encoded public key and meta fails
with InvalidCert when the meta is missing the name or the type, and with
InvalidCertMeta when the type token is not one of the recognised values. -/
theorem from_encoded_error_spec (pk : String) (m : List (String × String)) :
    (metaLookup m "name" = none → fromEncoded pk m = .error .invalidCert) ∧
    (∀ n, metaLookup m "name" = some n → metaLookup m "type" = none →
        fromEncoded pk m = .error .invalidCert) ∧
    (∀ n t, metaLookup m "name" = some n → metaLookup m "type" = some t →
        t ≠ "host" → t ≠ "user" → fromEncoded pk m = .error .invalidCertMeta) :=
  ⟨fun h => fromEncoded_missing_name pk m h,
   fun n hn h => fromEncoded_missing_type pk n m hn h,
   fun n t hn ht h1 h2 => fromEncoded_unknown_type pk n t m hn ht h1 h2⟩

/-- Witness for C9 (amended) at a concrete meta missing the name. -/
theorem from_encoded_error_spec_witness :
    fromEncoded "PK" [("type", "host")] = .error .invalidCert :=
  (from_encoded_error_spec "PK" [("type", "host")]).1 rfl

/-- Claim C10: a well-formed DEL event whose public key is not in the cache
succeeds and leaves the cache unchanged. -/
theorem del_missing_key_noop (c : CertCache) (f : Frame) (pk : String)
    (rest : List Frame) (h : c.get pk = none) :
    CertCache.recvMsg c (f :: Frame.text "DEL" :: Frame.text pk :: rest) = .ok c := by
  rw [recvMsg_del, remove_absent c pk h]

/-- Witness for C10 at a concrete one-certificate cache. -/
theorem del_missing_key_noop_witness :
    CertCache.recvMsg sampleCache
      [Frame.text "user", Frame.text "DEL", Frame.text "NOPE"] = .ok sampleCache :=
  del_missing_key_noop sampleCache (Frame.text "user") "NOPE" [] rfl

/-- Claim C1 counterexample: a successful cert::create (user peer, fresh name
"luke", generated keypair ("PK", "SK")) replies Ok, publishes the ADD
event — yet the certificate cache after the call does not contain the new
certificate: `do_create` never touches the cache, so the claim's "inserts
it into the certificate cache" is false of the API call itself. -/
theorem create_no_cache_insert_cex :
    (apiCreate sampleState userPeerMeta [Frame.text "host", Frame.text "luke"]
        "PK" "SK" [1]).2 =
      .ok [Frame.bin [1], Frame.text "Ok", Frame.text "PK", Frame.text "SK",
           Frame.metaF [("name", "luke"), ("type", "host")]] ∧
    (apiCreate sampleState userPeerMeta [Frame.text "host", Frame.text "luke"]
        "PK" "SK" [1]).1.published =
      [apiAddEvent (Cert.freshNew "PK" "SK" "luke" .host)] ∧
    (apiCreate sampleState userPeerMeta [Frame.text "host", Frame.text "luke"]
        "PK" "SK" [1]).1.cache.get "PK" = none :=
  ⟨rfl, rfl, rfl⟩

/-- Claim C1 (amended): a successful cert::create writes the new certificate to
the persistence adaptor and publishes exactly [type, "ADD", public_key,
encoded_meta] on the internal publisher; the API does not mutate the
certificate cache directly — instead, applying the published event to the
cache (as the proxy's subscriber side does) inserts the certificate. -/
theorem api_create_success (st : ApiState) (fm : List (String × String))
    (t n pk sk : String) (rid : List Nat) (m : RequestMeta) (ct : CertType)
    (hm : RequestMeta.make fm = .ok m) (hu : m.cert_type = .user)
    (ht : CertType.fromStr t = .ok ct)
    (hfresh : st.persistence.any (fun kv => decide (kv.1 = n)) = false) :
    apiCreate st fm [Frame.text t, Frame.text n] pk sk rid =
      ({ persistence := st.persistence ++ [(n, Cert.freshNew pk sk n ct)],
         published := st.published ++ [apiAddEvent (Cert.freshNew pk sk n ct)],
         cache := st.cache },
       .ok [Frame.bin rid, Frame.text "Ok", Frame.text pk, Frame.text sk,
            Frame.metaF (Cert.freshNew pk sk n ct).encodeMeta]) ∧
    CertCache.recvMsg st.cache (apiAddEvent (Cert.freshNew pk sk n ct)) =
      .ok (st.cache.insert pk (reconCert pk (Cert.freshNew pk sk n ct))) := by
  constructor
  · simp only [apiCreate, hm, hu]
    rw [if_pos (by simp)]
    simp only [doCreate, Frame.data, ht]
    simp only [persistCreate, freshNew_name, hfresh]
    simp
  · have hcan := freshNew_canonicalMeta pk sk n ct
    have h1 : CertCache.recvMsg st.cache (apiAddEvent (Cert.freshNew pk sk n ct)) =
        st.cache.addLoop [Frame.text pk,
          Frame.metaF (Cert.freshNew pk sk n ct).encodeMeta] := rfl
    rw [h1]
    show st.cache.addLoop
        (Frame.text (Cert.freshNew pk sk n ct).publicTxt ::
          Frame.metaF (Cert.freshNew pk sk n ct).encodeMeta :: []) = _
    simp only [CertCache.addLoop, Frame.data, Frame.decodeMeta,
               fromEncoded_canonical _ _ hcan, freshNew_publicTxt, reconCert_publicTxt]

/-- Witness for C1 (amended) at a concrete user peer, empty state, and
the request ["host", "luke"]. -/
theorem api_create_success_witness :
    apiCreate sampleState userPeerMeta [Frame.text "host", Frame.text "luke"]
        "PK" "SK" [1] =
      ({ persistence := [("luke", Cert.freshNew "PK" "SK" "luke" .host)],
         published := [apiAddEvent (Cert.freshNew "PK" "SK" "luke" .host)],
         cache := CertCache.emptyCache },
       .ok [Frame.bin [1], Frame.text "Ok", Frame.text "PK", Frame.text "SK",
            Frame.metaF (Cert.freshNew "PK" "SK" "luke" .host).encodeMeta]) ∧
    CertCache.recvMsg CertCache.emptyCache
        (apiAddEvent (Cert.freshNew "PK" "SK" "luke" .host)) =
      .ok (CertCache.emptyCache.insert "PK"
        (reconCert "PK" (Cert.freshNew "PK" "SK" "luke" .host))) :=
  api_create_success sampleState userPeerMeta "host" "luke" "PK" "SK" [1]
    { name := "boss", cert_type := .user } .host rfl rfl rfl rfl

/-- Inversion of a successful `ZapRequest::new`. -/
theorem zap_make_fields {seq d a i mech pk : String} {r : ZapRequest}
    (h : ZapRequest.make "1.0" seq d a i mech pk = .ok r) :
    r = { version := "1.0", sequence := seq, domain := d, address := a,
          identity := i, mechanism := mech, clientPk := pk } := by
  unfold ZapRequest.make at h
  rw [if_neg (by simp)] at h
  rcases Decidable.em (pk.length ≠ 40) with hl | hl
  · rw [if_pos hl] at h
    exact absurd h (by simp)
  · rw [if_neg hl] at h
    exact (Except.ok.inj h).symm

/-- Claim C4: for every well-formed ZAP request (version "1.0", 40-character
Z85 key): with mechanism "CURVE" and the presented key in the cache the
reply is ["1.0", sequence, "200", "OK", "", encoded_meta]; in every other
case it is ["1.0", sequence, "400", "No access", "", ""]. -/
theorem zap_authenticate_spec (seq d a i mech pk : String) (cc : CertCache)
    (r : ZapRequest) (h : ZapRequest.make "1.0" seq d a i mech pk = .ok r) :
    (∀ c, mech = "CURVE" → cc.get pk = some c →
        r.authenticate cc = [Frame.text "1.0", Frame.text seq, Frame.text "200",
          Frame.text "OK", Frame.text "", Frame.metaF c.encodeMeta]) ∧
    ((mech ≠ "CURVE" ∨ cc.get pk = none) →
        r.authenticate cc = [Frame.text "1.0", Frame.text seq, Frame.text "400",
          Frame.text "No access", Frame.text "", Frame.text ""]) := by
  have hr := zap_make_fields h
  subst hr
  constructor
  · intro c hmech hget
    simp [ZapRequest.authenticate, hmech, hget, zapReply]
  · intro hcase
    rcases hcase with hmech | hget
    · simp [ZapRequest.authenticate, hmech, zapReply]
    · rcases Decidable.em (mech = "CURVE") with hm2 | hm2 <;>
        simp [ZapRequest.authenticate, hm2, hget, zapReply]

/-- Witness for C4 at a concrete cached key (hit) using the sample cache. -/
theorem zap_authenticate_spec_witness :
    ZapRequest.authenticate
        { version := "1.0", sequence := "7", domain := "d", address := "a",
          identity := "i", mechanism := "CURVE", clientPk := samplePk }
        sampleCache =
      [Frame.text "1.0", Frame.text "7", Frame.text "200", Frame.text "OK",
       Frame.text "", Frame.metaF sampleCert.encodeMeta] :=
  (zap_authenticate_spec "7" "d" "a" "i" "CURVE" samplePk sampleCache
    { version := "1.0", sequence := "7", domain := "d", address := "a",
      identity := "i", mechanism := "CURVE", clientPk := samplePk } rfl).1
    sampleCert rfl rfl

/-- The (pubkey, meta) pairs of a snapshot never mention a string that is
distinct from every carried public key and name and from the reserved
feed vocabulary. -/
theorem pairs_no_secret (s : String) (l : List (String × Cert))
    (h1 : ∀ kv ∈ l, kv.2.canonicalMeta)
    (h2 : ∀ kv ∈ l, s ≠ kv.2.publicTxt ∧ s ≠ kv.2.name)
    (h3 : notReserved s) :
    checkNoSecret s (pairsOf l) = true := by
  induction l with
  | nil => rfl
  | cons kv t ih =>
    obtain ⟨hs1, hs2, hs3, hs4, hs5, hs6, hs7⟩ := h3
    have hc := h1 kv (List.mem_cons_self kv t)
    have hp := h2 kv (List.mem_cons_self kv t)
    have hrest := ih (fun x hx => h1 x (List.mem_cons_of_mem _ hx))
      (fun x hx => h2 x (List.mem_cons_of_mem _ hx))
    unfold Cert.canonicalMeta at hc
    unfold checkNoSecret at hrest ⊢
    simp only [pairsOf, List.all_cons, Bool.and_eq_true, hrest, and_true]
    constructor
    · simp [mentionsStr, hp.1.symm]
    · simp only [mentionsStr, Cert.encodeMeta, hc]
      cases hct : kv.2.cert_type <;>
        simp [CertType.toStr, hs2.symm, hs3.symm, hs6.symm, hs7.symm, hp.2.symm]

/-- Claim C5: no frame of any message emitted on the update feed mentions a
string `s` that is distinct from every cached public key and certificate
name and from the feed's reserved vocabulary — in particular no secret
key (which, being fresh key material, coincides with none of those
strings) ever appears: this covers the snapshot messages written by the
certificate cache and the single-certificate ADD/DEL events published by
the API, whose frames carry only the type/action tokens, the public key
text, and the encoded (name, type) meta. -/
theorem update_feed_no_secret (cc : CertCache) (t : Option CertType) (s : String)
    (c : Cert)
    (h1 : ∀ kv ∈ cc.cache, kv.2.canonicalMeta)
    (h2 : ∀ kv ∈ cc.cache, s ≠ kv.2.publicTxt ∧ s ≠ kv.2.name)
    (h3 : notReserved s)
    (hc : c.canonicalMeta) (hc2 : s ≠ c.publicTxt ∧ s ≠ c.name) :
    (∀ m, cc.sendMsg t = some m → checkNoSecret s m = true) ∧
    checkNoSecret s (apiAddEvent c) = true ∧
    checkNoSecret s (apiDelEvent c) = true := by
  obtain ⟨hs1, hs2, hs3, hs4, hs5, hs6, hs7⟩ := h3
  refine ⟨?_, ?_, ?_⟩
  · intro m hm
    simp only [CertCache.sendMsg] at hm
    set l := cc.cache.filter (fun kv => topicMatch t kv.2) with hl
    rcases Decidable.em ((pairsOf l).isEmpty = true) with hemp | hemp
    · rw [if_pos hemp] at hm
      exact absurd hm (by simp)
    · rw [if_neg hemp] at hm
      have hme : m = Frame.text (topicStr t) :: Frame.text "ADD" :: pairsOf l :=
        (Option.some.inj hm).symm
      subst hme
      have hpairs : checkNoSecret s (pairsOf l) = true :=
        pairs_no_secret s l
          (fun x hx => h1 x (List.mem_of_mem_filter hx))
          (fun x hx => h2 x (List.mem_of_mem_filter hx))
          ⟨hs1, hs2, hs3, hs4, hs5, hs6, hs7⟩
      unfold checkNoSecret at hpairs ⊢
      simp only [List.all_cons, Bool.and_eq_true, hpairs, and_true]
      constructor
      · rcases t with _ | ct
        · simp [topicStr, mentionsStr, hs1.symm]
        · cases ct <;> simp [topicStr, CertType.toStr, mentionsStr, hs2.symm, hs3.symm]
      · simp [mentionsStr, hs4.symm]
  · unfold Cert.canonicalMeta at hc
    unfold checkNoSecret
    simp only [apiAddEvent, List.all_cons, Bool.and_eq_true, List.all_nil, and_true]
    refine ⟨?_, by simp [mentionsStr, hs4.symm], by simp [mentionsStr, hc2.1.symm], ?_⟩
    · cases hct : c.cert_type <;> simp [CertType.toStr, mentionsStr, hs2.symm, hs3.symm]
    · simp only [mentionsStr, Cert.encodeMeta, hc]
      cases hct : c.cert_type <;>
        simp [CertType.toStr, hs2.symm, hs3.symm, hs6.symm, hs7.symm, hc2.2.symm]
  · unfold checkNoSecret
    simp only [apiDelEvent, List.all_cons, Bool.and_eq_true, List.all_nil, and_true]
    refine ⟨?_, by simp [mentionsStr, hs5.symm], by simp [mentionsStr, hc2.1.symm]⟩
    cases hct : c.cert_type <;> simp [CertType.toStr, mentionsStr, hs2.symm, hs3.symm]

/-- Witness for C5 at the sample cache, the full-cache filter, the fresh
secret string "SECRETKEY", and the sample certificate. -/
theorem update_feed_no_secret_witness :
    checkNoSecret "SECRETKEY"
      [Frame.text "", Frame.text "ADD", Frame.text samplePk,
       Frame.metaF sampleCert.encodeMeta] = true ∧
    checkNoSecret "SECRETKEY" (apiAddEvent sampleCert) = true ∧
    checkNoSecret "SECRETKEY" (apiDelEvent sampleCert) = true :=
  have h := update_feed_no_secret sampleCache none "SECRETKEY" sampleCert
    (by
      intro kv hkv
      simp only [sampleCache, List.mem_singleton] at hkv
      subst hkv
      exact freshNew_canonicalMeta samplePk "SECRETKEY" "peetar" .user)
    (by
      intro kv hkv
      simp only [sampleCache, List.mem_singleton] at hkv
      subst hkv
      exact ⟨by decide, by decide⟩)
    (by unfold notReserved; decide)
    (freshNew_canonicalMeta samplePk "SECRETKEY" "peetar" .user)
    ⟨by decide, by decide⟩
  ⟨h.1 _ rfl, h.2⟩

/-- Claim C6 counterexample: a subscribe frame (event byte 1) whose topic bytes
are not valid UTF-8 is rejected with the `str::from_utf8` decoding error,
not with InvalidCertMeta as the claim states for "any other topic". -/
theorem sub_topic_nonutf8_cex :
    zapPublisherRecv sampleCache (SubFrame.withEvent 1 (TopicBytes.bad [255])) =
      .error .utf8Fail ∧
    DError.utf8Fail ≠ DError.generic .invalidCertMeta :=
  ⟨rfl, by decide⟩

/-- Claim C6 (amended): a snapshot is sent only when the subscription frame's
first byte is the subscribe code 1 — any other event byte (in particular
the unsubscribe code 0) forwards the frame unchanged with no snapshot,
and so does an empty frame; under code 1 the topic selects the filter:
empty topic means the full cache, "host"/"user" mean the type-filtered
cache, any other UTF-8 topic is rejected with InvalidCertMeta, and topic
bytes that are not valid UTF-8 are rejected with a UTF-8 decoding
error. -/
theorem xpub_subscription_spec (cc : CertCache) :
    (∀ ev topic, ev ≠ 1 →
        zapPublisherRecv cc (SubFrame.withEvent ev topic) =
          .ok (none, SubFrame.withEvent ev topic)) ∧
    (∀ ev topic snap fwd,
        zapPublisherRecv cc (SubFrame.withEvent ev topic) = .ok (some snap, fwd) →
          ev = 1) ∧
    (zapPublisherRecv cc SubFrame.emptyFrame = .ok (none, SubFrame.emptyFrame)) ∧
    (∀ topic, topic.isEmpty = true →
        zapPublisherRecv cc (SubFrame.withEvent 1 topic) =
          .ok (cc.sendMsg none, SubFrame.withEvent 1 topic)) ∧
    (zapPublisherRecv cc (SubFrame.withEvent 1 (TopicBytes.utf8 "host")) =
        .ok (cc.sendMsg (some .host), SubFrame.withEvent 1 (TopicBytes.utf8 "host"))) ∧
    (zapPublisherRecv cc (SubFrame.withEvent 1 (TopicBytes.utf8 "user")) =
        .ok (cc.sendMsg (some .user), SubFrame.withEvent 1 (TopicBytes.utf8 "user"))) ∧
    (∀ s, s ≠ "" → s ≠ "host" → s ≠ "user" →
        zapPublisherRecv cc (SubFrame.withEvent 1 (TopicBytes.utf8 s)) =
          .error (.generic .invalidCertMeta)) ∧
    (∀ b, b ≠ ([] : List Nat) →
        zapPublisherRecv cc (SubFrame.withEvent 1 (TopicBytes.bad b)) =
          .error .utf8Fail) := by
  refine ⟨?_, ?_, rfl, ?_, rfl, rfl, ?_, ?_⟩
  · intro ev topic h
    simp [zapPublisherRecv, h]
  · intro ev topic snap fwd h
    rcases Decidable.em (ev = 1) with hev | hev
    · exact hev
    · exfalso
      simp [zapPublisherRecv, hev] at h
  · intro topic ht
    simp [zapPublisherRecv, ht]
  · intro s h1 h2 h3
    simp [zapPublisherRecv, TopicBytes.isEmpty, h1, fromStr_unknown s h2 h3]
  · intro b hb
    simp [zapPublisherRecv, TopicBytes.isEmpty, hb]

/-- Witness for C6 (amended): an unsubscribe frame (event byte 0) on the
sample cache is forwarded unchanged with no snapshot. -/
theorem xpub_subscription_spec_witness :
    zapPublisherRecv sampleCache (SubFrame.withEvent 0 (TopicBytes.utf8 "user")) =
      .ok (none, SubFrame.withEvent 0 (TopicBytes.utf8 "user")) :=
  (xpub_subscription_spec sampleCache).1 0 (TopicBytes.utf8 "user") (by decide)

end IntectureAuth
